import Mathlib

/-!
Shallow embedding of the `ziot` Home-Assistant PDU integration
(`custom_components/gwgj_pdu`): frame codec, device registry, state
coordinator, TCP gateway per-connection state machine and the polling
adapter's switch-status parser, with proofs of the specification's
testable properties.

Conventions used throughout:
* Python dicts are modelled as insertion-ordered association lists.
* Python float timestamps (`time.time()`) are modelled as rationals and
  passed in explicitly as a `now` argument.
* Python `None`-vs-`bool` return values are modelled by the `PyRet` type.
-/

namespace Ziot

/-- The apostrophe character (used in the wire protocol's `key='value'` tokens). -/
def quoteChar : Char := Char.ofNat 39

/-- Python `str.strip` / regex `\s` whitespace (ASCII range: space, tab,
newline, carriage return, vertical tab, form feed). -/
def pyIsSpace (c : Char) : Bool :=
  c == ' ' || c == '\t' || c == '\n' || c == '\r' || c == Char.ofNat 11 || c == Char.ofNat 12

/-- Python `str.strip()`: drop whitespace from both ends. -/
def pyStrip (xs : List Char) : List Char :=
  ((xs.dropWhile pyIsSpace).reverse.dropWhile pyIsSpace).reverse

/-- Python `int()` on a run of ASCII digits (decimal). -/
def digitsToNat (ds : List Char) : Nat :=
  ds.foldl (fun a c => a * 10 + (c.toNat - 48)) 0

/-- `PduServer.get_code`: `sum(ord(ch) for ch in cmd_str) % 256`. -/
def getCode (s : String) : Nat := (s.data.map Char.toNat).sum % 256

/-- `PduServer._send_raw_command` / `send_control_command` frame construction:
`f"START {cmd_content} check='{check_value}' END"` with
`check_value = get_code cmd_content`. -/
def encodeFrame (content : String) : String :=
  "START " ++ content ++ " check='" ++ toString (getCode content) ++ "' END"

/-- One step of the gateway's frame splitter (`handle_client`):
`end_pos = buffer.find("END") + 3; msg = buffer[:end_pos]; buffer = buffer[end_pos:]`.
Returns `(buffer[:end_pos], buffer[end_pos:])` for the first occurrence of
`"END"`, or `none` when the buffer holds no `"END"`. -/
def splitAtEnd : List Char → Option (List Char × List Char)
  | [] => none
  | c :: cs =>
    if c = 'E' ∧ cs.take 2 = ['N', 'D'] then
      some (['E', 'N', 'D'], cs.drop 2)
    else
      (splitAtEnd cs).map (fun p => (c :: p.1, p.2))

/-- Boolean test used to state "the buffer contains no `"END"` substring":
mirrors the scan performed by `splitAtEnd`. -/
def containsEND : List Char → Bool
  | [] => false
  | c :: cs => (decide (c = 'E') && decide (cs.take 2 = ['N', 'D'])) || containsEND cs

/-- Fuel-indexed version of the gateway's inner decode loop
(`while "END" in buffer:` in `handle_client`): repeatedly split off the
frame up to the first `"END"`, strip it, and emit it.  Each iteration
shortens the buffer by at least three characters, so `buffer.length` fuel
always suffices. -/
def decodeFramesAux : Nat → List Char → List (List Char) × List Char
  | 0, buf => ([], buf)
  | fuel + 1, buf =>
    match splitAtEnd buf with
    | none => ([], buf)
    | some (msg, rest) =>
      let p := decodeFramesAux fuel rest
      (pyStrip msg :: p.1, p.2)

/-- The gateway's inner decode loop: emits every complete (stripped)
frame in the buffer, in order, and returns the retained remainder. -/
def decodeFrames (buf : List Char) : List (List Char) × List Char :=
  decodeFramesAux buf.length buf

/-- The protocol token `" check='"` separating a frame's content from its
checksum. -/
def checkPat : List Char := " check='".data

/-- Split a buffer around the LAST occurrence of `pat`, returning the parts
before and after it (used to model the greedy regexes `START (.*) END` and
the spec's checksum-token extraction). -/
def lastSplitAt (pat : List Char) : List Char → Option (List Char × List Char)
  | [] => none
  | c :: cs =>
    match lastSplitAt pat cs with
    | some p => some (c :: p.1, p.2)
    | none =>
      if pat.isPrefixOf (c :: cs) then some ([], (c :: cs).drop pat.length) else none

/-- Modelled from the spec: the codec's decode half.  `pdu_server.py` only
splits frames off the stream (`handle_client`) and never parses the
`check='N'` token back out; section 4.1/8 of the spec describe
`decode` as recovering the content together with its checksum, which this
definition implements: strip the `START `/` END` wrapper, split at the
last `" check='"` token, and parse the quoted decimal checksum. -/
def decodeFrame (msg : List Char) : Option (List Char × Nat) :=
  if ("START ".data).isPrefixOf msg ∧ (" END".data).isSuffixOf msg then
    let body := (msg.drop 6).take ((msg.drop 6).length - 4)
    match lastSplitAt checkPat body with
    | none => none
    | some (content, rest) =>
      let ds := rest.takeWhile Char.isDigit
      if ds ≠ [] ∧ rest = ds ++ [quoteChar] then some (content, digitsToNat ds)
      else none
  else none

/-- Python values stored in a coordinator device dict: switch-state strings,
numeric sensor readings, and the `_available_sensors` set. -/
inductive PyVal : Type where
  | str : String → PyVal
  | num : ℚ → PyVal
  | set : List String → PyVal
deriving DecidableEq

/-- Lookup in an insertion-ordered association list (Python `dict.get`). -/
def assocGet {κ α : Type} [DecidableEq κ] : List (κ × α) → κ → Option α
  | [], _ => none
  | (k, v) :: rest, key => if key = k then some v else assocGet rest key

/-- Update/insert in an insertion-ordered association list
(Python `dict[key] = value`). -/
def assocSet {κ α : Type} [DecidableEq κ] : List (κ × α) → κ → α → List (κ × α)
  | [], key, v => [(key, v)]
  | (k, w) :: rest, key, v =>
    if key = k then (k, v) :: rest else (k, w) :: assocSet rest key v

/-- Deletion from an association list (Python `del dict[key]`). -/
def assocRemove {κ α : Type} [DecidableEq κ] : List (κ × α) → κ → List (κ × α)
  | [], _ => []
  | (k, v) :: rest, key => if key = k then rest else (k, v) :: assocRemove rest key

/-- The key `f"switch_{i}"`. -/
def switchKey (i : Nat) : String := "switch_" ++ toString i

/-- `PduCoordinator` state: per-device data dicts, the debounce cache
`_last_state`, and a count of `async_set_updated_data` notifications. -/
structure Coordinator : Type where
  data : List (String × List (String × PyVal))
  lastState : List ((String × String) × (String × ℚ))
  notifyCount : Nat
deriving DecidableEq

/-- A freshly constructed coordinator (`PduCoordinator.__init__`). -/
def freshCoord : Coordinator := { data := [], lastState := [], notifyCount := 0 }

/-- The fresh device entry built by `init_pdu`: `switch_1..switch_n` all
`"off"`, then an empty `_available_sensors` set. -/
def initEntry (numSwitches : Nat) : List (String × PyVal) :=
  ((List.range' 1 numSwitches).map (fun i => (switchKey i, PyVal.str ("off")))) ++
    [("_available_sensors", PyVal.set [])]

/-- `PduCoordinator.init_pdu`: idempotently seed a device entry with
`switch_1..switch_n = "off"` followed by an empty `_available_sensors` set.
The Python default for `num_switches` is 8. -/
def initPdu (co : Coordinator) (pduId : String) (numSwitches : Nat) : Coordinator :=
  if (assocGet co.data pduId).isSome then co
  else { co with data := assocSet co.data pduId (initEntry numSwitches) }

/-- `PduCoordinator.update_switch_state`: debounced switch write.  `now`
models `time.time()`; the Python default for `debounce_sec` is `0.5`.
Returns the updated coordinator and whether the notification fired. -/
def updateSwitchState (co : Coordinator) (pduId : String) (switchNumber : Nat)
    (state : String) (debounceSec : ℚ) (now : ℚ) : Coordinator × Bool :=
  let co' := if (assocGet co.data pduId).isSome then co else initPdu co pduId 8
  let key := (pduId, switchKey switchNumber)
  let fire : Coordinator × Bool :=
    ({ data := assocSet co'.data pduId
          (assocSet ((assocGet co'.data pduId).getD []) (switchKey switchNumber)
            (PyVal.str state)),
       lastState := assocSet co'.lastState key (state, now),
       notifyCount := co'.notifyCount + 1 }, true)
  match assocGet co'.lastState key with
  | some (s, t) => if s = state ∧ now - t < debounceSec then (co', false) else fire
  | none => fire

/-- `PduCoordinator.update_sensor_data`: store a sensor value, record its
type in `_available_sensors` (a set: added once), and notify.  The
`_available_sensors` key is always present after `init_pdu`. -/
def updateSensorData (co : Coordinator) (pduId : String) (sensorType : String)
    (value : PyVal) : Coordinator :=
  let co' := if (assocGet co.data pduId).isSome then co else initPdu co pduId 8
  let e := (assocGet co'.data pduId).getD []
  let e' := match assocGet e ("_available_sensors") with
    | some (PyVal.set l) =>
        assocSet e ("_available_sensors")
          (PyVal.set (if sensorType ∈ l then l else l ++ [sensorType]))
    | _ => e
  { co' with data := assocSet co'.data pduId (assocSet e' sensorType value),
             notifyCount := co'.notifyCount + 1 }

/-- The `for i in range(1, 9)` loop body of
`PduCoordinator.update_all_switches`: set `switch_i` from bit `i-1` of the
mask, only for keys already present. -/
def bulkSwitchFold (ioValue : Nat) (e : List (String × PyVal)) : List (String × PyVal) :=
  (List.range' 1 8).foldl (fun acc i =>
    let state := if ioValue &&& (1 <<< (i - 1)) ≠ 0 then "on" else "off"
    if (assocGet acc (switchKey i)).isSome then assocSet acc (switchKey i) (PyVal.str state)
    else acc) e

/-- `PduCoordinator.update_all_switches`: bulk bitmask update followed by a
single notification. -/
def updateAllSwitches (co : Coordinator) (pduId : String) (ioValue : Nat) : Coordinator :=
  let co' := if (assocGet co.data pduId).isSome then co else initPdu co pduId 8
  { co' with
      data := assocSet co'.data pduId (bulkSwitchFold ioValue ((assocGet co'.data pduId).getD [])),
      notifyCount := co'.notifyCount + 1 }

/-- `PduCoordinator.get_switch_state`. -/
def getSwitchState (co : Coordinator) (pduId : String) (switchNumber : Nat) : Option PyVal :=
  match assocGet co.data pduId with
  | some e => assocGet e (switchKey switchNumber)
  | none => none

/-- A device record as synthesized by `DeviceRegistry._create_default_config`
(the registry's records all carry these fields). -/
structure DeviceRec : Type where
  identifiers : String
  manufacturer : String
  model : String
  name : String
  swVersion : String
  configurationUrl : Option String
  connected : Bool
  lastSeen : String
  numSwitches : Nat
deriving DecidableEq

/-- The device registry's in-memory `devices` dict. -/
abbrev Registry := List (String × DeviceRec)

/-- `DeviceRegistry._create_default_config` with the defaults from
`const.py` (`Generic` / `PDU` / `1.0.0` / 8 switches); `now` models
`datetime.now().isoformat()`. -/
def createDefaultConfig (pduId : String) (now : String) : DeviceRec :=
  { identifiers := pduId, manufacturer := "Generic", model := "PDU",
    name := "PDU " ++ pduId, swVersion := "1.0.0", configurationUrl := none,
    connected := true, lastSeen := now, numSwitches := 8 }

/-- `DeviceRegistry.async_register_device` (persistence to disk is an
external effect and not modelled). -/
def asyncRegisterDevice (reg : Registry) (pduId : String) (autoCreate : Bool)
    (now : String) : Bool × Registry :=
  match assocGet reg pduId with
  | some r => (true, assocSet reg pduId { r with connected := true, lastSeen := now })
  | none =>
    if autoCreate then (true, assocSet reg pduId (createDefaultConfig pduId now))
    else (false, reg)

/-- `DeviceRegistry.async_set_device_connected`: update the connectivity
flag of a known device; refresh `last_seen` only when connecting. -/
def asyncSetDeviceConnected (reg : Registry) (pduId : String) (connected : Bool)
    (now : String) : Registry :=
  match assocGet reg pduId with
  | some r =>
    assocSet reg pduId
      (if connected then { r with connected := connected, lastSeen := now }
       else { r with connected := connected })
  | none => reg

/-- A live connection's writer stream.  Python compares writers by object
identity (`connection_pool[pdu_id][1] == writer`); distinct connections
carry distinct `id`s. -/
structure Conn : Type where
  id : Nat
  closing : Bool
deriving DecidableEq

/-- A Python return value that is either `None` or a `bool`
(`send_control_command` only ever has bare `return` statements). -/
inductive PyRet : Type where
  | noneVal : PyRet
  | boolVal : Bool → PyRet
deriving DecidableEq

/-- `PduServer.send_control_command`: look up the pool entry; if absent or
closing, log and bare-`return`; otherwise write the encoded
`f"{action} io='{io_number}'"` frame.  The first component is the write
performed (if any); the second is the Python return value. -/
def sendControlCommand (pool : List (String × Conn)) (pduId : String) (action : String)
    (ioNumber : Nat) : Option (Conn × String) × PyRet :=
  match assocGet pool pduId with
  | none => (none, PyRet.noneVal)
  | some w =>
    if w.closing then (none, PyRet.noneVal)
    else (some (w, encodeFrame (action ++ " io='" ++ toString ioNumber ++ "'")), PyRet.noneVal)

/-- One attempt of `re.search(r"id='([^']+)'", msg)` at the present
position: literal `id='`, a non-empty run of non-quote characters, closing
quote. -/
def tryIdAt (xs : List Char) : Option String :=
  if ("id='".data).isPrefixOf xs then
    let rest := xs.drop 4
    let cap := rest.takeWhile (fun c => c != quoteChar)
    if cap ≠ [] ∧ (rest.drop cap.length).take 1 = [quoteChar] then some (String.mk cap)
    else none
  else none

/-- `re.search(r"id='([^']+)'", msg)`: leftmost match wins. -/
def searchIdToken : List Char → Option String
  | [] => none
  | c :: cs =>
    match tryIdAt (c :: cs) with
    | some v => some v
    | none => searchIdToken cs

/-- The literal-token part `io='<digits>'` of the command regexes. -/
def tryIoAt (xs : List Char) : Option Nat :=
  if ("io='".data).isPrefixOf xs then
    let rest := xs.drop 4
    let ds := rest.takeWhile Char.isDigit
    if ds ≠ [] ∧ (rest.drop ds.length).take 1 = [quoteChar] then some (digitsToNat ds)
    else none
  else none

/-- The lazy gap `.*?io='(\d+)'`: scan forward for the `io` token, stopping
at a newline (`.` does not match `\n`). -/
def findIoToken : List Char → Option Nat
  | [] => none
  | c :: cs =>
    match tryIoAt (c :: cs) with
    | some n => some n
    | none => if c = '\n' then none else findIoToken cs

/-- One attempt of `re.search(r"(open|close).*?io='(\d+)'", command)` at the
present position. -/
def tryKwIoTok (xs : List Char) : Option (String × Nat) :=
  if ("open".data).isPrefixOf xs then
    (findIoToken (xs.drop 4)).map (fun n => ("open", n))
  else if ("close".data).isPrefixOf xs then
    (findIoToken (xs.drop 5)).map (fun n => ("close", n))
  else none

/-- `re.search(r"(open|close).*?io='(\d+)'", command)` as used by
`PduServer._update_state_from_command`. -/
def searchOpenCloseIoTok : List Char → Option (String × Nat)
  | [] => none
  | c :: cs =>
    match tryKwIoTok (c :: cs) with
    | some r => some r
    | none => searchOpenCloseIoTok cs

/-- Python regex `\w` (word character; ASCII range suffices here). -/
def isWordChar (c : Char) : Bool := c.isAlphanum || c == '_'

/-- `io='<digits>'` as a boolean check. -/
def ioDigitsQuote (xs : List Char) : Bool :=
  ("io='".data).isPrefixOf xs &&
    (let rest := xs.drop 4
     let ds := rest.takeWhile Char.isDigit
     decide (ds ≠ []) && decide ((rest.drop ds.length).take 1 = [quoteChar]))

/-- `\s+io='<digits>'`: at least one whitespace character, then the token. -/
def wsThenIoTok (xs : List Char) : Bool :=
  let ws := xs.takeWhile pyIsSpace
  decide (ws ≠ []) && ioDigitsQuote (xs.drop ws.length)

/-- `(open|close)\s+io='(\d+)'` anchored at the present position. -/
def openCloseHere (xs : List Char) : Bool :=
  (("open".data).isPrefixOf xs && wsThenIoTok (xs.drop 4)) ||
  (("close".data).isPrefixOf xs && wsThenIoTok (xs.drop 5))

/-- Scanner for `re.search(r"\b(open|close)\s+io='(\d+)'", msg)`: `prev` is
the character before the present position (`none` at the start); the `\b`
boundary holds when it is absent or a non-word character. -/
def matchOpenCloseAux : Option Char → List Char → Bool
  | _, [] => false
  | prev, c :: cs =>
    ((match prev with | none => true | some p => !isWordChar p) && openCloseHere (c :: cs))
      || matchOpenCloseAux (some c) cs

/-- `re.search(r"\b(open|close)\s+io='(\d+)'", msg)` as a boolean, used by
`handle_client` to classify a frame as a switch-command echo. -/
def matchOpenClose (xs : List Char) : Bool := matchOpenCloseAux none xs

/-- One attempt of `re.search(r"START (.*) END", msg)` at the present
position: literal `START `, then a greedy newline-free gap, then the LAST
`" END"` on that stretch. -/
def tryStartContentAt (xs : List Char) : Option (List Char) :=
  if ("START ".data).isPrefixOf xs then
    (lastSplitAt (" END".data) ((xs.drop 6).takeWhile (fun c => c != '\n'))).map Prod.fst
  else none

/-- `re.search(r"START (.*) END", msg)`: the content group. -/
def searchStartContentEnd : List Char → Option (List Char)
  | [] => none
  | c :: cs =>
    match tryStartContentAt (c :: cs) with
    | some v => some v
    | none => searchStartContentEnd cs

/-- One attempt of `re.search(r"io8='(\d+)'", msg)` at the present position. -/
def tryIo8At (xs : List Char) : Option Nat :=
  if ("io8='".data).isPrefixOf xs then
    let rest := xs.drop 5
    let ds := rest.takeWhile Char.isDigit
    if ds ≠ [] ∧ (rest.drop ds.length).take 1 = [quoteChar] then some (digitsToNat ds)
    else none
  else none

/-- `re.search(r"io8='(\d+)'", msg)`: the captured digits parsed by
`int()` (decimal). -/
def searchIo8 : List Char → Option Nat
  | [] => none
  | c :: cs =>
    match tryIo8At (c :: cs) with
    | some n => some n
    | none => searchIo8 cs

/-- Python substring containment (`pat in msg`). -/
def containsSub (pat : List Char) : List Char → Bool
  | [] => pat.isEmpty
  | c :: cs => pat.isPrefixOf (c :: cs) || containsSub pat cs

/-- `PduServer._update_state_from_command`: extract the action and `io`
bitmask, translate the mask to a switch number (direct for values ≤ 8,
`log2+1` for larger powers of two, pass-through otherwise) and perform the
debounced switch write (Python default debounce 0.5 s). -/
def updateStateFromCommand (co : Coordinator) (pduId : String) (command : List Char)
    (now : ℚ) : Coordinator :=
  match searchOpenCloseIoTok command with
  | none => co
  | some (action, ioNumber) =>
    let haSwitchNumber :=
      if ioNumber ≤ 8 then ioNumber
      else if ioNumber &&& (ioNumber - 1) = 0 then Nat.log2 ioNumber + 1
      else ioNumber
    let state := if action = "open" then "on" else "off"
    (updateSwitchState co pduId haSwitchNumber state (1/2) now).1

/-- `PduServer._parse_and_publish_iostate`: find `io8='<digits>'`, parse the
digits with `int()` (decimal) and run the bulk update. -/
def parseAndPublishIostate (co : Coordinator) (pduId : String) (msg : List Char) : Coordinator :=
  match searchIo8 msg with
  | some v => updateAllSwitches co pduId v
  | none => co

/-- The gateway's shared state: device registry, coordinator and the live
connection pool `pdu_id -> writer`. -/
structure Gateway : Type where
  registry : Registry
  coordinator : Coordinator
  pool : List (String × Conn)
deriving DecidableEq

/-- Per-connection handler state of `handle_client`: the writer, the
device id once logged in, the frame-assembly buffer, and whether the
handler has returned (invalid login). -/
structure ConnState : Type where
  conn : Conn
  pduId : Option String
  buffer : List Char
  closed : Bool
deriving DecidableEq

/-- Processing of one decoded frame by `handle_client`.  In the login phase
a frame with an `id='...'` token registers the device (auto-create),
reads its configured switch count (`device_config.get("num_switches", 8)`;
the entry always exists right after registration), seeds the coordinator,
replaces the pool entry, and replies with the raw bytes
`Login Successful` followed by the initial `iostate` and `PVC_get` request
frames; any other frame logs and returns (handler ends).  Once logged in,
frames are classified as open/close echoes or `iostate` replies.  The
`START PVC` branch only feeds floating-point sensor scaling
(`_parse_and_publish_pvc`) and is outside the verified claims, so it is
left as a no-op here; entity creation and the outlet-current scrape task
are external effects. -/
def processMessage (gw : Gateway) (cs : ConnState) (msg : List Char) (now : ℚ)
    (nowStr : String) : Gateway × ConnState × List String :=
  match cs.pduId with
  | none =>
    match searchIdToken msg with
    | some pid =>
      let reg := (asyncRegisterDevice gw.registry pid true nowStr).2
      let numSwitches := match assocGet reg pid with
        | some r => r.numSwitches
        | none => 8
      let co := initPdu gw.coordinator pid numSwitches
      let pool := assocSet gw.pool pid cs.conn
      ({ registry := reg, coordinator := co, pool := pool },
        { cs with pduId := some pid },
        ["Login Successful", encodeFrame ("iostate"), encodeFrame ("PVC_get")])
    | none => (gw, { cs with closed := true }, [])
  | some pid =>
    if matchOpenClose msg then
      match searchStartContentEnd msg with
      | some content =>
        ({ gw with coordinator := updateStateFromCommand gw.coordinator pid content now },
          cs, [])
      | none => (gw, cs, [])
    else if containsSub ("START iostate".data) msg then
      ({ gw with coordinator := parseAndPublishIostate gw.coordinator pid msg }, cs, [])
    else
      (gw, cs, [])

/-- The `while "END" in buffer` loop of `handle_client` over one received
chunk, fuelled by the buffer length (each frame removes at least three
characters).  Collects all raw writes made along the way. -/
def handleChunkAux : Nat → Gateway → ConnState → ℚ → String → List String →
    Gateway × ConnState × List String
  | 0, gw, cs, _, _, outs => (gw, cs, outs)
  | fuel + 1, gw, cs, now, nowStr, outs =>
    if cs.closed then (gw, cs, outs)
    else
      match splitAtEnd cs.buffer with
      | none => (gw, cs, outs)
      | some (msg, rest) =>
        let r := processMessage gw { cs with buffer := rest } (pyStrip msg) now nowStr
        handleChunkAux fuel r.1 r.2.1 now nowStr (outs ++ r.2.2)

/-- One network read of `handle_client`: append the chunk to the assembly
buffer and drain every complete frame. -/
def handleChunk (gw : Gateway) (cs : ConnState) (chunk : String) (now : ℚ)
    (nowStr : String) : Gateway × ConnState × List String :=
  handleChunkAux (cs.buffer ++ chunk.data).length gw { cs with buffer := cs.buffer ++ chunk.data }
    now nowStr []

/-- The `finally` block of `handle_client`: if this connection had logged
in and the pool entry for its device still refers to THIS writer, drop the
entry and mark the device disconnected; otherwise leave everything alone. -/
def handleClientCleanup (gw : Gateway) (cs : ConnState) (nowStr : String) : Gateway :=
  match cs.pduId with
  | none => gw
  | some pid =>
    match assocGet gw.pool pid with
    | some w =>
      if w = cs.conn then
        { gw with pool := assocRemove gw.pool pid,
                  registry := asyncSetDeviceConnected gw.registry pid false nowStr }
      else gw
    | none => gw

/-- One attempt of `re.search(r"var\s+classtemp\s*=\s*'([^']+)'", text)` at
the present position (`PduClient._parse_switch_status`). -/
def tryClasstempAt (xs : List Char) : Option (List Char) :=
  if ("var".data).isPrefixOf xs then
    let r1 := xs.drop 3
    let ws1 := r1.takeWhile pyIsSpace
    if ws1 = [] then none
    else
      let r2 := r1.drop ws1.length
      if ("classtemp".data).isPrefixOf r2 then
        let r3 := (r2.drop 9).dropWhile pyIsSpace
        if r3.take 1 = ['='] then
          let r4 := (r3.drop 1).dropWhile pyIsSpace
          if r4.take 1 = [quoteChar] then
            let rest := r4.drop 1
            let cap := rest.takeWhile (fun c => c != quoteChar)
            if cap ≠ [] ∧ (rest.drop cap.length).take 1 = [quoteChar] then some cap
            else none
          else none
        else none
      else none
  else none

/-- `re.search(r"var\s+classtemp\s*=\s*'([^']+)'", text)`: the capture. -/
def extractClasstemp : List Char → Option (List Char)
  | [] => none
  | c :: cs =>
    match tryClasstempAt (c :: cs) with
    | some v => some v
    | none => extractClasstemp cs

/-- `PduClient._parse_switch_status`: locate the `var classtemp='...'`
assignment, strip the capture, and drive switches 1..8 from its first
eight characters with inverted polarity (each write goes through
`update_switch_state` with the Python default 0.5 s debounce; `now`
models the clock during the loop). -/
def parseSwitchStatus (co : Coordinator) (pduId : String) (text : List Char)
    (now : ℚ) : Coordinator :=
  match extractClasstemp text with
  | none => co
  | some cap =>
    let statusStr := pyStrip cap
    (List.range 8).foldl (fun acc i =>
      if i < statusStr.length then
        let state := if statusStr.getD i ' ' = '0' then "on" else "off"
        (updateSwitchState acc pduId (i + 1) state (1/2) now).1
      else acc) co

theorem splitAtEnd_eq_none_of_not_containsEND {xs : List Char}
    (h : containsEND xs = false) : splitAtEnd xs = none := by
  induction xs with
  | nil => rfl
  | cons c cs ih =>
    simp only [containsEND, Bool.or_eq_false_iff, Bool.and_eq_false_iff,
      decide_eq_false_iff_not] at h
    simp only [splitAtEnd]
    rw [if_neg, ih h.2]
    · rfl
    · intro hc
      rcases h.1 with h1 | h1 <;> exact h1 (by simp [hc.1, hc.2])

theorem splitAtEnd_length {xs : List Char} {p : List Char × List Char}
    (h : splitAtEnd xs = some p) : 3 ≤ xs.length := by
  induction xs generalizing p with
  | nil => simp [splitAtEnd] at h
  | cons c cs ih =>
    simp only [splitAtEnd] at h
    split at h
    · rename_i hc
      have hlen : 2 ≤ cs.length := by
        have := congrArg List.length hc.2
        simp [List.length_take] at this
        omega
      simp only [List.length_cons]
      omega
    · cases hsp : splitAtEnd cs with
      | none => rw [hsp] at h; simp at h
      | some q =>
        have := ih hsp
        simp only [List.length_cons]
        omega

theorem splitAtEnd_rest_lt {xs msg rest : List Char}
    (h : splitAtEnd xs = some (msg, rest)) : rest.length < xs.length := by
  induction xs generalizing msg rest with
  | nil => simp [splitAtEnd] at h
  | cons c cs ih =>
    simp only [splitAtEnd] at h
    split at h
    · simp only [Option.some.injEq, Prod.mk.injEq] at h
      have hr : rest = cs.drop 2 := h.2.symm
      subst hr
      simp only [List.length_drop, List.length_cons]
      omega
    · cases hsp : splitAtEnd cs with
      | none => rw [hsp] at h; simp at h
      | some p =>
        rw [hsp] at h
        simp only [Option.map_some', Option.some.injEq, Prod.mk.injEq] at h
        have := @ih p.1 p.2 (by rw [hsp])
        have hr : rest = p.2 := h.2.symm
        subst hr
        simp only [List.length_cons]
        omega

/-- The first `"END"` occurrence splits the buffer exactly where it was
appended, provided the prefix holds no `"END"` of its own. -/
theorem splitAtEnd_append {xs : List Char} (ys : List Char)
    (h : containsEND xs = false) :
    splitAtEnd (xs ++ 'E' :: 'N' :: 'D' :: ys) = some (xs ++ ['E', 'N', 'D'], ys) := by
  induction xs with
  | nil => simp [splitAtEnd]
  | cons a xs ih =>
    simp only [containsEND, Bool.or_eq_false_iff, Bool.and_eq_false_iff,
      decide_eq_false_iff_not] at h
    have hstep : ¬(a = 'E' ∧ (xs ++ 'E' :: 'N' :: 'D' :: ys).take 2 = ['N', 'D']) := by
      match xs, h with
      | [], h => simp
      | [b], h => simp
      | b :: d :: t, h =>
        intro hand
        have htk : (b :: d :: (t ++ 'E' :: 'N' :: 'D' :: ys)).take 2 = ['N', 'D'] := by
          simpa using hand.2
        simp only [List.take_succ_cons, List.take_zero, List.cons.injEq, and_true] at htk
        rcases h.1 with h1 | h1
        · exact h1 hand.1
        · exact h1 (by simp [htk.1, htk.2])
    rw [List.cons_append, splitAtEnd, if_neg hstep, ih h.2]
    rfl

/-- Scanning stays put under extension when the first `"END"` is already found. -/
theorem splitAtEnd_append_of_some {xs msg rest : List Char} (ys : List Char)
    (h : splitAtEnd xs = some (msg, rest)) :
    splitAtEnd (xs ++ ys) = some (msg, rest ++ ys) := by
  induction xs generalizing msg rest with
  | nil => simp [splitAtEnd] at h
  | cons c cs ih =>
    have hcs2 : 2 ≤ cs.length := by
      have := splitAtEnd_length h
      simp only [List.length_cons] at this
      omega
    have htk : (cs ++ ys).take 2 = cs.take 2 := List.take_append_of_le_length hcs2
    have hdr : (cs ++ ys).drop 2 = cs.drop 2 ++ ys := List.drop_append_of_le_length hcs2
    rw [List.cons_append, splitAtEnd]
    rw [splitAtEnd] at h
    split at h
    · rename_i hc
      rw [if_pos ⟨hc.1, by rw [htk, hc.2]⟩]
      simp only [Option.some.injEq, Prod.mk.injEq] at h ⊢
      exact ⟨h.1, by rw [hdr, h.2]⟩
    · rename_i hc
      rw [if_neg (by rw [htk]; exact hc)]
      cases hsp : splitAtEnd cs with
      | none => rw [hsp] at h; simp at h
      | some p =>
        rw [hsp] at h
        simp only [Option.map_some', Option.some.injEq, Prod.mk.injEq] at h
        rw [@ih p.1 p.2 (by rw [hsp])]
        simp [← h.1, ← h.2]

theorem decodeFramesAux_congr : ∀ (f g : Nat) (buf : List Char),
    buf.length ≤ f → buf.length ≤ g → decodeFramesAux f buf = decodeFramesAux g buf := by
  intro f
  induction f with
  | zero =>
    intro g buf hf _
    have : buf = [] := List.length_eq_zero.mp (Nat.le_zero.mp hf)
    subst this
    cases g with
    | zero => rfl
    | succ g => simp [decodeFramesAux, splitAtEnd]
  | succ f ih =>
    intro g buf hf hg
    cases g with
    | zero =>
      have : buf = [] := List.length_eq_zero.mp (Nat.le_zero.mp hg)
      subst this
      simp [decodeFramesAux, splitAtEnd]
    | succ g =>
      simp only [decodeFramesAux]
      cases hsp : splitAtEnd buf with
      | none => rfl
      | some p =>
        obtain ⟨msg, rest⟩ := p
        have hlt := splitAtEnd_rest_lt hsp
        have heq := ih g rest (by omega) (by omega)
        simp [heq]

/-- One-step unfolding of `decodeFrames`. -/
theorem decodeFrames_unfold (buf : List Char) :
    decodeFrames buf =
      match splitAtEnd buf with
      | none => ([], buf)
      | some (msg, rest) =>
        let p := decodeFrames rest
        (pyStrip msg :: p.1, p.2) := by
  cases hsp : splitAtEnd buf with
  | none =>
    cases hb : buf with
    | nil => rfl
    | cons c cs =>
      simp only [decodeFrames, List.length_cons, decodeFramesAux]
      rw [← hb, hsp]
  | some p =>
    obtain ⟨msg, rest⟩ := p
    have h3 := splitAtEnd_length hsp
    have hlt := splitAtEnd_rest_lt hsp
    obtain ⟨n, hn⟩ : ∃ n, buf.length = n + 1 := ⟨buf.length - 1, by omega⟩
    simp only [decodeFrames, hn, decodeFramesAux, hsp]
    rw [decodeFramesAux_congr n rest.length rest (by omega) (by omega)]

theorem decodeFrames_of_no_end {buf : List Char} (h : containsEND buf = false) :
    decodeFrames buf = ([], buf) := by
  rw [decodeFrames_unfold, splitAtEnd_eq_none_of_not_containsEND h]

/-- Feeding the network reads piecewise agrees with feeding their
concatenation: the loop's retained remainder assembles partial frames
across arbitrarily many reads. -/
theorem decodeFrames_append (b chunk : List Char) :
    decodeFrames (b ++ chunk) =
      ((decodeFrames b).1 ++ (decodeFrames ((decodeFrames b).2 ++ chunk)).1,
        (decodeFrames ((decodeFrames b).2 ++ chunk)).2) := by
  generalize hlen : b.length = n
  induction n using Nat.strong_induction_on generalizing b with
  | _ n ih =>
    cases hsp : splitAtEnd b with
    | none =>
      rw [decodeFrames_unfold b, hsp]
      simp
    | some p =>
      obtain ⟨msg, rest⟩ := p
      have hlt := splitAtEnd_rest_lt hsp
      rw [decodeFrames_unfold b, hsp, decodeFrames_unfold (b ++ chunk),
        splitAtEnd_append_of_some chunk hsp]
      simp only
      rw [ih rest.length (by omega) rest rfl]
      simp

theorem containsEND_append_of_noE {xs : List Char} (ys : List Char)
    (h : 'E' ∉ xs) : containsEND (xs ++ ys) = containsEND ys := by
  induction xs with
  | nil => rfl
  | cons a xs ih =>
    have ha : a ≠ 'E' := fun hc => h (by simp [hc])
    simp only [List.cons_append, containsEND, decide_eq_false ha, Bool.false_and,
      Bool.false_or]
    exact ih (fun hc => h (List.mem_cons_of_mem a hc))

/-- A window of the `"END"` scan that starts inside `xs` cannot complete
across the boundary into `ys` unless `ys` opens with the missing tail. -/
theorem containsEND_append_safe {xs ys : List Char}
    (h : containsEND xs = false) (h2 : ys.take 2 ≠ ['N', 'D'])
    (h1 : ys.take 1 ≠ ['D']) : containsEND (xs ++ ys) = containsEND ys := by
  induction xs with
  | nil => rfl
  | cons a xs ih =>
    simp only [containsEND, Bool.or_eq_false_iff, Bool.and_eq_false_iff,
      decide_eq_false_iff_not] at h
    have hwin : (decide (a = 'E') && decide ((xs ++ ys).take 2 = ['N', 'D'])) = false := by
      rcases h.1 with h' | h'
      · simp [h']
      · match xs with
        | [] =>
          simp only [List.nil_append]
          rw [Bool.and_eq_false_iff]
          right
          simpa using h2
        | [b] =>
          simp only [List.cons_append, List.nil_append, List.take_succ_cons]
          rw [Bool.and_eq_false_iff]
          right
          rw [decide_eq_false_iff_not]
          intro hc
          simp only [List.cons.injEq] at hc
          exact h1 (by
            cases ys with
            | nil => simp at hc
            | cons y ys' => simp_all)
        | b :: d :: t =>
          rw [Bool.and_eq_false_iff]
          right
          rw [decide_eq_false_iff_not]
          intro hc
          simp only [List.cons_append, List.take_succ_cons, List.take_zero,
            List.cons.injEq, and_true] at hc
          exact h' (by simp [hc.1, hc.2])
    simp only [List.cons_append, containsEND, List.append_eq, hwin, Bool.false_or]
    exact ih h.2

set_option maxRecDepth 4000 in
/-- Decimal representations below 256 consist of one to three digits:
no `'E'`, no whitespace, no apostrophe, and `int()` parses them back. -/
theorem reprDigits_ok : ∀ n : Nat, n < 256 →
    ('E' ∉ (toString n).data ∧ ' ' ∉ (toString n).data ∧
      quoteChar ∉ (toString n).data ∧ (toString n).data ≠ [] ∧
      (toString n).data.takeWhile Char.isDigit = (toString n).data ∧
      digitsToNat (toString n).data = n) := by decide

theorem assocGet_assocSet_self {κ α : Type} [DecidableEq κ] (l : List (κ × α)) (k : κ) (v : α) :
    assocGet (assocSet l k v) k = some v := by
  induction l with
  | nil => simp [assocGet, assocSet]
  | cons p rest ih =>
    obtain ⟨k', w⟩ := p
    by_cases h : k = k' <;> simp [assocSet, assocGet, h, ih]

theorem assocGet_assocSet_ne {κ α : Type} [DecidableEq κ] (l : List (κ × α)) {k k' : κ} (v : α)
    (h : k' ≠ k) : assocGet (assocSet l k v) k' = assocGet l k' := by
  induction l with
  | nil => simp [assocGet, assocSet, h]
  | cons p rest ih =>
    obtain ⟨k2, w⟩ := p
    by_cases h2 : k = k2
    · subst h2
      simp [assocSet, assocGet, h]
    · by_cases h3 : k' = k2 <;> simp [assocSet, assocGet, h2, h3, ih]

theorem assocGet_eq_none_iff {κ α : Type} [DecidableEq κ] (l : List (κ × α)) (k : κ) :
    assocGet l k = none ↔ k ∉ l.map Prod.fst := by
  induction l with
  | nil => simp [assocGet]
  | cons p rest ih =>
    obtain ⟨k', w⟩ := p
    by_cases h : k = k' <;> simp [assocGet, h, ih]

theorem assocGet_assocRemove_self {κ α : Type} [DecidableEq κ] (l : List (κ × α)) (k : κ)
    (h : (l.map Prod.fst).Nodup) : assocGet (assocRemove l k) k = none := by
  induction l with
  | nil => simp [assocGet, assocRemove]
  | cons p rest ih =>
    obtain ⟨k', w⟩ := p
    simp only [List.map_cons, List.nodup_cons] at h
    by_cases h2 : k = k'
    · subst h2
      simp only [assocRemove, if_pos rfl]
      exact (assocGet_eq_none_iff rest k).mpr h.1
    · simp [assocRemove, assocGet, h2, ih h.2]

/-- C7: `register(id, auto_create)` is idempotent — a known id is marked
connected with a refreshed last-seen and yields `true` (other entries
untouched); an unknown id with `auto_create` yields `true` and a default
record (which is connected); an unknown id without `auto_create` yields
`false` and leaves the registry unchanged. -/
theorem registry_register_semantics (reg : Registry) (pduId now : String) :
    (∀ r, assocGet reg pduId = some r → ∀ ac,
      (asyncRegisterDevice reg pduId ac now).1 = true ∧
      assocGet (asyncRegisterDevice reg pduId ac now).2 pduId =
        some { r with connected := true, lastSeen := now } ∧
      (∀ q, q ≠ pduId → assocGet (asyncRegisterDevice reg pduId ac now).2 q = assocGet reg q)) ∧
    (assocGet reg pduId = none →
      (asyncRegisterDevice reg pduId true now).1 = true ∧
      assocGet (asyncRegisterDevice reg pduId true now).2 pduId =
        some (createDefaultConfig pduId now) ∧
      (createDefaultConfig pduId now).connected = true ∧
      (∀ q, q ≠ pduId → assocGet (asyncRegisterDevice reg pduId true now).2 q = assocGet reg q)) ∧
    (assocGet reg pduId = none →
      asyncRegisterDevice reg pduId false now = (false, reg)) := by
  refine ⟨?_, ?_, ?_⟩
  · intro r hr ac
    refine ⟨by simp [asyncRegisterDevice, hr], ?_, ?_⟩
    · simp only [asyncRegisterDevice, hr]
      exact assocGet_assocSet_self reg pduId _
    · intro q hq
      simp only [asyncRegisterDevice, hr]
      exact assocGet_assocSet_ne reg _ hq
  · intro hr
    refine ⟨by simp [asyncRegisterDevice, hr], ?_, rfl, ?_⟩
    · simp only [asyncRegisterDevice, hr]
      exact assocGet_assocSet_self reg pduId _
    · intro q hq
      simp only [asyncRegisterDevice, hr]
      exact assocGet_assocSet_ne reg _ hq
  · intro hr
    simp [asyncRegisterDevice, hr]

/-- Witness for C7 at a concrete registry. -/
theorem registry_register_semantics_witness :
    (asyncRegisterDevice [] ("PDU1") true ("T0")).1 = true ∧
    assocGet (asyncRegisterDevice [] ("PDU1") true ("T0")).2 ("PDU1") =
      some (createDefaultConfig ("PDU1") ("T0")) ∧
    asyncRegisterDevice [] ("PDU2") false ("T0") = (false, []) := by
  have h := registry_register_semantics [] ("PDU1") ("T0")
  have h2 := registry_register_semantics [] ("PDU2") ("T0")
  exact ⟨(h.2.1 rfl).1, (h.2.1 rfl).2.1, h2.2.2 rfl⟩

/-- C8 (counterexample): with an empty pool, `send_control_command` sends
nothing and its Python return value is `None`, not a boolean — so the
failure is not "reported to the caller as a boolean return value". -/
theorem send_command_counterexample :
    sendControlCommand [] ("X") ("open") 4 = (none, PyRet.noneVal) ∧
    PyRet.noneVal ≠ PyRet.boolVal true ∧ PyRet.noneVal ≠ PyRet.boolVal false := by
  refine ⟨rfl, ?_, ?_⟩ <;> intro h <;> cases h

/-- C8 (amended): when the target id has no pool entry or its stream is
closing, `send_control_command` writes nothing and returns `None` — there
is no queuing, no retry, and no boolean failure report. -/
theorem send_command_failure (pool : List (String × Conn)) (pduId action : String)
    (io : Nat)
    (h : assocGet pool pduId = none ∨
      ∃ w, assocGet pool pduId = some w ∧ w.closing = true) :
    (sendControlCommand pool pduId action io).1 = none ∧
    (sendControlCommand pool pduId action io).2 = PyRet.noneVal := by
  rcases h with h | ⟨w, hw, hc⟩
  · simp [sendControlCommand, h]
  · simp [sendControlCommand, hw, hc]

/-- Witness for C8's amended theorem on a pool whose only entry is closing. -/
theorem send_command_failure_witness :
    (sendControlCommand [(("X" : String), { id := 7, closing := true })] ("X") ("open") 4).1
      = none ∧
    (sendControlCommand [(("X" : String), { id := 7, closing := true })] ("X") ("open") 4).2
      = PyRet.noneVal :=
  send_command_failure [(("X" : String), { id := 7, closing := true })] ("X") ("open") 4
    (Or.inr ⟨{ id := 7, closing := true }, rfl, rfl⟩)

/-- C3: a login frame always points the pool entry at the logging-in
connection (so a reconnect replaces the old entry); a handler's cleanup is
a no-op when the pool entry has been replaced by a different connection
(the device is not marked disconnected), and it removes the entry and
clears the registry's connected flag exactly when the entry still refers
to this handler's own writer. -/
theorem pool_replacement_invariant :
    (∀ gw cs msg pid now nowStr, cs.pduId = none → searchIdToken msg = some pid →
      assocGet (processMessage gw cs msg now nowStr).1.pool pid = some cs.conn) ∧
    (∀ gw cs pid nowStr b, cs.pduId = some pid → assocGet gw.pool pid = some b →
      b ≠ cs.conn → handleClientCleanup gw cs nowStr = gw) ∧
    (∀ gw cs pid nowStr, cs.pduId = some pid → (gw.pool.map Prod.fst).Nodup →
      assocGet gw.pool pid = some cs.conn →
      assocGet (handleClientCleanup gw cs nowStr).pool pid = none ∧
      (∀ r, assocGet gw.registry pid = some r →
        assocGet (handleClientCleanup gw cs nowStr).registry pid =
          some { r with connected := false })) := by
  refine ⟨?_, ?_, ?_⟩
  · intro gw cs msg pid now nowStr hnone hid
    simp only [processMessage, hnone, hid]
    exact assocGet_assocSet_self gw.pool pid cs.conn
  · intro gw cs pid nowStr b hpid hb hne
    simp [handleClientCleanup, hpid, hb, hne]
  · intro gw cs pid nowStr hpid hnd hself
    simp only [handleClientCleanup, hpid, hself, if_pos rfl]
    refine ⟨assocGet_assocRemove_self gw.pool pid hnd, ?_⟩
    intro r hr
    simp only [asyncSetDeviceConnected, hr, if_neg (Bool.false_ne_true)]
    exact assocGet_assocSet_self gw.registry pid _

/-- Witness for C3: device `X` logged in from connection 1, pool since
replaced by connection 2 — the stale handler's cleanup changes nothing;
and when the pool still holds connection 1, cleanup evicts it and clears
the connected flag. -/
theorem pool_replacement_invariant_witness :
    (handleClientCleanup
      { registry := [(("X" : String), createDefaultConfig ("X") ("T0"))],
        coordinator := freshCoord,
        pool := [(("X" : String), { id := 2, closing := false })] }
      { conn := { id := 1, closing := false }, pduId := some ("X"),
        buffer := [], closed := false } ("T1") =
      { registry := [(("X" : String), createDefaultConfig ("X") ("T0"))],
        coordinator := freshCoord,
        pool := [(("X" : String), { id := 2, closing := false })] }) ∧
    (assocGet (handleClientCleanup
      { registry := [(("X" : String), createDefaultConfig ("X") ("T0"))],
        coordinator := freshCoord,
        pool := [(("X" : String), { id := 1, closing := false })] }
      { conn := { id := 1, closing := false }, pduId := some ("X"),
        buffer := [], closed := false } ("T1")).pool ("X") = none) := by
  constructor
  · exact pool_replacement_invariant.2.1
      { registry := [(("X" : String), createDefaultConfig ("X") ("T0"))],
        coordinator := freshCoord,
        pool := [(("X" : String), { id := 2, closing := false })] }
      { conn := { id := 1, closing := false }, pduId := some ("X"),
        buffer := [], closed := false }
      ("X") ("T1") { id := 2, closing := false } rfl (by decide) (by decide)
  · exact (pool_replacement_invariant.2.2
      { registry := [(("X" : String), createDefaultConfig ("X") ("T0"))],
        coordinator := freshCoord,
        pool := [(("X" : String), { id := 1, closing := false })] }
      { conn := { id := 1, closing := false }, pduId := some ("X"),
        buffer := [], closed := false }
      ("X") ("T1") rfl (by decide) (by decide)).1

theorem initPdu_lastState (co : Coordinator) (pid : String) (n : Nat) :
    (initPdu co pid n).lastState = co.lastState := by
  unfold initPdu
  split <;> rfl

theorem initPdu_notifyCount (co : Coordinator) (pid : String) (n : Nat) :
    (initPdu co pid n).notifyCount = co.notifyCount := by
  unfold initPdu
  split <;> rfl

theorem updateSwitchState_of_none {co : Coordinator} {pid : String} {n : Nat} (v : String)
    (db now : ℚ) (h0 : assocGet co.lastState (pid, switchKey n) = none) :
    (updateSwitchState co pid n v db now).2 = true ∧
    (updateSwitchState co pid n v db now).1.notifyCount = co.notifyCount + 1 ∧
    (updateSwitchState co pid n v db now).1.lastState =
      assocSet co.lastState (pid, switchKey n) (v, now) := by
  have hl : (if (assocGet co.data pid).isSome then co else initPdu co pid 8).lastState
      = co.lastState := by split <;> simp [initPdu_lastState]
  have hc : (if (assocGet co.data pid).isSome then co else initPdu co pid 8).notifyCount
      = co.notifyCount := by split <;> simp [initPdu_notifyCount]
  simp only [updateSwitchState, hl, hc, h0]
  exact ⟨by trivial, by trivial, by trivial⟩

theorem updateSwitchState_suppressed {co : Coordinator} {pid : String} {n : Nat}
    {v s : String} {t : ℚ} (db now : ℚ)
    (h0 : assocGet co.lastState (pid, switchKey n) = some (s, t))
    (hs : s = v) (ht : now - t < db) :
    (updateSwitchState co pid n v db now).2 = false ∧
    (updateSwitchState co pid n v db now).1.notifyCount = co.notifyCount ∧
    (updateSwitchState co pid n v db now).1.lastState = co.lastState := by
  have hl : (if (assocGet co.data pid).isSome then co else initPdu co pid 8).lastState
      = co.lastState := by split <;> simp [initPdu_lastState]
  have hc : (if (assocGet co.data pid).isSome then co else initPdu co pid 8).notifyCount
      = co.notifyCount := by split <;> simp [initPdu_notifyCount]
  simp only [updateSwitchState, hl, h0]
  rw [if_pos (⟨hs, ht⟩ : s = v ∧ now - t < db)]
  exact ⟨rfl, hc, hl⟩

theorem updateSwitchState_refire {co : Coordinator} {pid : String} {n : Nat}
    {v s : String} {t : ℚ} (db now : ℚ)
    (h0 : assocGet co.lastState (pid, switchKey n) = some (s, t))
    (hcond : ¬(s = v ∧ now - t < db)) :
    (updateSwitchState co pid n v db now).2 = true ∧
    (updateSwitchState co pid n v db now).1.notifyCount = co.notifyCount + 1 ∧
    (updateSwitchState co pid n v db now).1.lastState =
      assocSet co.lastState (pid, switchKey n) (v, now) := by
  have hl : (if (assocGet co.data pid).isSome then co else initPdu co pid 8).lastState
      = co.lastState := by split <;> simp [initPdu_lastState]
  have hc : (if (assocGet co.data pid).isSome then co else initPdu co pid 8).notifyCount
      = co.notifyCount := by split <;> simp [initPdu_notifyCount]
  simp only [updateSwitchState, hl, hc, h0]
  rw [if_neg hcond]
  exact ⟨by trivial, by trivial, by trivial⟩

/-- C4: with a 1.0 s debounce and no earlier record for the key, a first
`set_switch` fires (returns `true`), a second identical write within one
second is suppressed (returns `false`, no notification), and a third
identical write at least 1.0 s after the first fires again — the boolean
result tracks exactly whether the notification count advanced. -/
theorem debounce_behaviour (co : Coordinator) (d v : String) (t1 t2 t3 : ℚ)
    (h0 : assocGet co.lastState (d, switchKey 1) = none)
    (h12 : t2 - t1 < 1) (h13 : 1 ≤ t3 - t1) :
    (updateSwitchState co d 1 v 1 t1).2 = true ∧
    (updateSwitchState (updateSwitchState co d 1 v 1 t1).1 d 1 v 1 t2).2 = false ∧
    (updateSwitchState
      (updateSwitchState (updateSwitchState co d 1 v 1 t1).1 d 1 v 1 t2).1
      d 1 v 1 t3).2 = true ∧
    (updateSwitchState (updateSwitchState co d 1 v 1 t1).1 d 1 v 1 t2).1.notifyCount =
      co.notifyCount + 1 ∧
    (updateSwitchState
      (updateSwitchState (updateSwitchState co d 1 v 1 t1).1 d 1 v 1 t2).1
      d 1 v 1 t3).1.notifyCount = co.notifyCount + 2 := by
  obtain ⟨b1, c1, l1⟩ := updateSwitchState_of_none v 1 t1 h0
  have g1 : assocGet (updateSwitchState co d 1 v 1 t1).1.lastState (d, switchKey 1)
      = some (v, t1) := by
    rw [l1]
    exact assocGet_assocSet_self co.lastState (d, switchKey 1) (v, t1)
  obtain ⟨b2, c2, l2⟩ := updateSwitchState_suppressed 1 t2 g1 rfl h12
  have g2 : assocGet
      (updateSwitchState (updateSwitchState co d 1 v 1 t1).1 d 1 v 1 t2).1.lastState
      (d, switchKey 1) = some (v, t1) := by
    rw [l2]
    exact g1
  have hnl : ¬(v = v ∧ t3 - t1 < 1) := by
    intro hand
    linarith [hand.2]
  obtain ⟨b3, c3, _⟩ := updateSwitchState_refire 1 t3 g2 hnl
  refine ⟨b1, b2, b3, ?_, ?_⟩
  · rw [c2, c1]
  · rw [c3, c2, c1]

/-- Witness for C4 at `t1 = 0`, `t2 = 1/2`, `t3 = 1` on a fresh store. -/
theorem debounce_behaviour_witness :
    (updateSwitchState freshCoord ("PDU1") 1 ("on") 1 0).2 = true ∧
    (updateSwitchState (updateSwitchState freshCoord ("PDU1") 1 ("on") 1 0).1
      ("PDU1") 1 ("on") 1 (1/2)).2 = false ∧
    (updateSwitchState
      (updateSwitchState (updateSwitchState freshCoord ("PDU1") 1 ("on") 1 0).1
        ("PDU1") 1 ("on") 1 (1/2)).1
      ("PDU1") 1 ("on") 1 1).2 = true := by
  have h := debounce_behaviour freshCoord ("PDU1") ("on") 0 (1/2) 1 rfl (by norm_num)
    (by norm_num)
  exact ⟨h.1, h.2.1, h.2.2.1⟩

theorem switchKey_one : switchKey 1 = "switch_1" := rfl

theorem switchKey_two : switchKey 2 = "switch_2" := rfl

theorem switchKey_three : switchKey 3 = "switch_3" := rfl

theorem switchKey_four : switchKey 4 = "switch_4" := rfl

theorem switchKey_five : switchKey 5 = "switch_5" := rfl

theorem switchKey_six : switchKey 6 = "switch_6" := rfl

theorem switchKey_seven : switchKey 7 = "switch_7" := rfl

theorem switchKey_eight : switchKey 8 = "switch_8" := rfl

/-- Truthiness of `io_value & (1 << (i - 1))` agrees with `testBit`. -/
theorem and_shift_ne_iff (mask k : Nat) : (mask &&& (1 <<< k) ≠ 0) ↔ mask.testBit k = true := by
  rw [Nat.shiftLeft_eq, one_mul, Nat.and_two_pow]
  cases h : mask.testBit k
  · simp [h]
  · simp [h, Nat.pow_eq_zero]

/-- The bulk-update loop only writes keys that are already present. -/
theorem foldStep_none (mask : Nat) (k : String) :
    ∀ (l : List Nat) (e : List (String × PyVal)), assocGet e k = none →
      assocGet (l.foldl (fun acc i =>
        let state := if mask &&& (1 <<< (i - 1)) ≠ 0 then "on" else "off"
        if (assocGet acc (switchKey i)).isSome then
          assocSet acc (switchKey i) (PyVal.str state)
        else acc) e) k = none := by
  intro l
  induction l with
  | nil => intro e h; exact h
  | cons a l ih =>
    intro e h
    simp only [List.foldl_cons]
    apply ih
    by_cases hp : (assocGet e (switchKey a)).isSome = true
    · have hk : k ≠ switchKey a := by
        intro hkk
        rw [← hkk, h] at hp
        simp [Option.isSome] at hp
      simp only [hp, if_true]
      rw [assocGet_assocSet_ne _ _ hk]
      exact h
    · simp only [hp, if_false]
      exact h

theorem bulkSwitchFold_none {e : List (String × PyVal)} {k : String} (mask : Nat)
    (h : assocGet e k = none) : assocGet (bulkSwitchFold mask e) k = none :=
  foldStep_none mask k (List.range' 1 8) e h

/-- C2 (counterexample): the reply token `io8='00000101'` is parsed by
`int()` as the DECIMAL number 101 (binary 1100101), so the bulk update
also turns switch 6 on — refuting "switches 1 and 3 on and every other
switch in the configured range off". -/
theorem bulk_bitmask_counterexample :
    getSwitchState (parseAndPublishIostate (initPdu freshCoord ("PDU1") 8) ("PDU1")
        ("START iostate io8='00000101' END".data)) ("PDU1") 6 =
      some (PyVal.str ("on")) ∧ PyVal.str ("on") ≠ PyVal.str ("off") := by
  constructor
  · decide
  · decide

/-- C2 (amended): an `iostate` reply `io8='00000101'` on a device with 8
configured switches parses as decimal 101 and therefore sets switches
1, 3, 6 and 7 "on" and switches 2, 4, 5, 8 "off" with exactly one
notification, leaving absent switch keys absent; in general, on a device
initialised with N ≤ 8 switches, the bulk update sets switch i
(1 ≤ i ≤ N) to "on" iff bit (i-1) of the mask is set, fires exactly one
notification for the batch, and never creates switch keys beyond the
configured range. -/
theorem bulk_bitmask_amended :
    ((List.range' 1 8).map (fun i =>
        getSwitchState (parseAndPublishIostate (initPdu freshCoord ("PDU1") 8) ("PDU1")
          ("START iostate io8='00000101' END".data)) ("PDU1") i) =
      [some (PyVal.str ("on")), some (PyVal.str ("off")), some (PyVal.str ("on")),
        some (PyVal.str ("off")), some (PyVal.str ("off")), some (PyVal.str ("on")),
        some (PyVal.str ("on")), some (PyVal.str ("off"))] ∧
      (parseAndPublishIostate (initPdu freshCoord ("PDU1") 8) ("PDU1")
          ("START iostate io8='00000101' END".data)).notifyCount = 1 ∧
      getSwitchState (parseAndPublishIostate (initPdu freshCoord ("PDU1") 8) ("PDU1")
          ("START iostate io8='00000101' END".data)) ("PDU1") 9 = none) ∧
    (∀ (pid : String) (mask N i : Nat), N ≤ 8 → 1 ≤ i → i ≤ N →
      getSwitchState (updateAllSwitches (initPdu freshCoord pid N) pid mask) pid i =
        some (PyVal.str (if mask.testBit (i - 1) then "on" else "off")) ∧
      (updateAllSwitches (initPdu freshCoord pid N) pid mask).notifyCount = 1 ∧
      (∀ j, getSwitchState (initPdu freshCoord pid N) pid j = none →
        getSwitchState (updateAllSwitches (initPdu freshCoord pid N) pid mask) pid j =
          none)) := by
  constructor
  · exact ⟨by decide, by decide, by decide⟩
  · intro pid mask N i hN h1 hiN
    have hE : assocGet (initPdu freshCoord pid N).data pid = some (initEntry N) := by
      simp [initPdu, freshCoord, assocGet, assocSet]
    refine ⟨?_, ?_, ?_⟩
    · interval_cases N <;> interval_cases i <;>
        simp [updateAllSwitches, initPdu, initEntry, bulkSwitchFold, getSwitchState,
          assocGet, assocSet, freshCoord, List.range', switchKey_one, switchKey_two,
          switchKey_three, switchKey_four, switchKey_five, switchKey_six,
          switchKey_seven, switchKey_eight, and_shift_ne_iff]
    · simp [updateAllSwitches, initPdu, freshCoord, assocGet, assocSet]
    · intro j hj
      simp only [getSwitchState, hE] at hj
      simp only [updateAllSwitches, getSwitchState, hE, Option.isSome_some, if_true,
        Option.getD_some, assocGet_assocSet_self]
      exact bulkSwitchFold_none mask hj

/-- Witness for the general part of C2's amended theorem: device with 4
configured switches, mask 5 — switch 3 reads bit 2. -/
theorem bulk_bitmask_amended_witness :
    getSwitchState (updateAllSwitches (initPdu freshCoord ("PDU9") 4) ("PDU9") 5)
        ("PDU9") 3 =
      some (PyVal.str (if (5 : Nat).testBit 2 then "on" else "off")) :=
  (bulk_bitmask_amended.2 ("PDU9") 5 4 3 (by decide) (by decide) (by decide)).1

theorem assocGet_initEntry_off (j : Nat) (h1 : 1 ≤ j) (h8 : j ≤ 8) :
    assocGet (initEntry 8) (switchKey j) = some (PyVal.str ("off")) := by
  interval_cases j <;> decide

theorem assocGet_initEntry_avail :
    assocGet (initEntry 8) ("_available_sensors") = some (PyVal.set []) := by decide

theorem switchKey_ne_of_ne {j n : Nat} (h1 : 1 ≤ j) (h8 : j ≤ 8) (hn1 : 1 ≤ n)
    (hn8 : n ≤ 8) (hne : j ≠ n) : switchKey j ≠ switchKey n := by
  interval_cases j <;> interval_cases n <;> first | omega | decide

theorem switchKey_ne_avail {n : Nat} (h1 : 1 ≤ n) (h8 : n ≤ 8) :
    switchKey n ≠ "_available_sensors" := by
  interval_cases n <;> decide

/-- C10: writing through `update_switch_state`, `update_sensor_data` or
`update_all_switches` to a device id never seen before cannot fail: the
coordinator first creates the entry with 8 switches all `"off"` and an
empty available-sensor set, then applies the requested write. -/
theorem lazy_initialization (co : Coordinator) (pid sv sty : String) (val : PyVal)
    (n : Nat) (t : ℚ) (mask : Nat)
    (hd : assocGet co.data pid = none)
    (hls : assocGet co.lastState (pid, switchKey n) = none)
    (hn1 : 1 ≤ n) (hn8 : n ≤ 8)
    (hsty : sty ≠ "_available_sensors") :
    ((updateSwitchState co pid n sv (1/2) t).2 = true ∧
      getSwitchState (updateSwitchState co pid n sv (1/2) t).1 pid n =
        some (PyVal.str sv) ∧
      (∀ j, 1 ≤ j → j ≤ 8 → j ≠ n →
        getSwitchState (updateSwitchState co pid n sv (1/2) t).1 pid j =
          some (PyVal.str ("off"))) ∧
      (∃ e, assocGet (updateSwitchState co pid n sv (1/2) t).1.data pid = some e ∧
        assocGet e ("_available_sensors") = some (PyVal.set []))) ∧
    ((∀ j, 1 ≤ j → j ≤ 8 → switchKey j ≠ sty →
        getSwitchState (updateSensorData co pid sty val) pid j =
          some (PyVal.str ("off"))) ∧
      (∃ e, assocGet (updateSensorData co pid sty val).data pid = some e ∧
        assocGet e sty = some val ∧
        assocGet e ("_available_sensors") = some (PyVal.set [sty]))) ∧
    (∀ i, 1 ≤ i → i ≤ 8 →
      getSwitchState (updateAllSwitches co pid mask) pid i =
        some (PyVal.str (if mask.testBit (i - 1) then "on" else "off"))) := by
  have hco' : (if (assocGet co.data pid).isSome then co else initPdu co pid 8) =
      initPdu co pid 8 := by rw [hd]; rfl
  have hgetE : assocGet (initPdu co pid 8).data pid = some (initEntry 8) := by
    simp only [initPdu, hd, Option.isSome_none, Bool.false_eq_true, if_false]
    exact assocGet_assocSet_self co.data pid (initEntry 8)
  have hlast : (initPdu co pid 8).lastState = co.lastState := initPdu_lastState co pid 8
  refine ⟨?_, ?_, ?_⟩
  · have hfire : updateSwitchState co pid n sv (1/2) t =
        ({ data := assocSet (initPdu co pid 8).data pid
              (assocSet (initEntry 8) (switchKey n) (PyVal.str sv)),
           lastState := assocSet co.lastState (pid, switchKey n) (sv, t),
           notifyCount := (initPdu co pid 8).notifyCount + 1 }, true) := by
      simp only [updateSwitchState, hco', hlast, hls, hgetE, Option.getD_some]
    refine ⟨by rw [hfire], ?_, ?_, ?_⟩
    · rw [hfire]
      simp only [getSwitchState, assocGet_assocSet_self]
    · intro j hj1 hj8 hjn
      rw [hfire]
      simp only [getSwitchState, assocGet_assocSet_self]
      rw [assocGet_assocSet_ne _ _ (switchKey_ne_of_ne hj1 hj8 hn1 hn8 hjn)]
      exact assocGet_initEntry_off j hj1 hj8
    · refine ⟨assocSet (initEntry 8) (switchKey n) (PyVal.str sv), ?_, ?_⟩
      · rw [hfire]
        exact assocGet_assocSet_self _ pid _
      · rw [assocGet_assocSet_ne _ _ (Ne.symm (switchKey_ne_avail hn1 hn8))]
        exact assocGet_initEntry_avail
  · have hsd : updateSensorData co pid sty val =
        { data := assocSet (initPdu co pid 8).data pid
            (assocSet (assocSet (initEntry 8) ("_available_sensors") (PyVal.set [sty]))
              sty val),
          lastState := (initPdu co pid 8).lastState,
          notifyCount := (initPdu co pid 8).notifyCount + 1 } := by
      simp only [updateSensorData, hco', hgetE, Option.getD_some,
        assocGet_initEntry_avail, List.not_mem_nil, if_neg, List.nil_append]
      rfl
    refine ⟨?_, ?_⟩
    · intro j hj1 hj8 hjs
      rw [hsd]
      simp only [getSwitchState, assocGet_assocSet_self]
      rw [assocGet_assocSet_ne _ _ hjs,
        assocGet_assocSet_ne _ _ (switchKey_ne_avail hj1 hj8)]
      exact assocGet_initEntry_off j hj1 hj8
    · refine ⟨assocSet (assocSet (initEntry 8) ("_available_sensors") (PyVal.set [sty]))
        sty val, ?_, ?_, ?_⟩
      · rw [hsd]
        exact assocGet_assocSet_self _ pid _
      · exact assocGet_assocSet_self _ sty val
      · rw [assocGet_assocSet_ne _ _ (Ne.symm hsty)]
        exact assocGet_assocSet_self _ _ _
  · intro i h1 h8
    interval_cases i <;>
      simp [updateAllSwitches, hco', hgetE, getSwitchState, bulkSwitchFold,
        List.range', assocGet, assocSet, assocGet_assocSet_self, switchKey_one,
        switchKey_two, switchKey_three, switchKey_four, switchKey_five, switchKey_six,
        switchKey_seven, switchKey_eight, and_shift_ne_iff, initEntry, Option.getD_some]

/-- Witness for C10 on an entirely fresh coordinator. -/
theorem lazy_initialization_witness :
    (updateSwitchState freshCoord ("PDU1") 2 ("on") (1/2) 0).2 = true ∧
    getSwitchState (updateSwitchState freshCoord ("PDU1") 2 ("on") (1/2) 0).1
      ("PDU1") 2 = some (PyVal.str ("on")) ∧
    getSwitchState (updateSwitchState freshCoord ("PDU1") 2 ("on") (1/2) 0).1
      ("PDU1") 5 = some (PyVal.str ("off")) ∧
    getSwitchState (updateSensorData freshCoord ("PDU1") ("power") (PyVal.num 9))
      ("PDU1") 1 = some (PyVal.str ("off")) := by
  have h := lazy_initialization freshCoord ("PDU1") ("on") ("power") (PyVal.num 9)
    2 0 0 rfl rfl (by decide) (by decide) (by decide)
  exact ⟨h.1.1, h.1.2.1, h.1.2.2.1 5 (by decide) (by decide) (by decide),
    h.2.1.1 1 (by decide) (by decide) (by decide)⟩

/-- C9 (counterexample): `_parse_switch_status` requires a `var classtemp=`
assignment; a response that merely CONTAINS `classtemp='00000001'` (no
`var`) is not parsed, so switch 1 stays "off" instead of being set "on". -/
theorem polling_classtemp_counterexample :
    getSwitchState (parseSwitchStatus (initPdu freshCoord ("10_0_0_5") 8) ("10_0_0_5")
        ("classtemp='00000001'".data) 0) ("10_0_0_5") 1 = some (PyVal.str ("off")) ∧
    PyVal.str ("off") ≠ PyVal.str ("on") := by
  constructor
  · decide
  · decide

/-- C9 (amended): when the response carries a `var classtemp='...'`
assignment, `classtemp='00000001'` sets switches 1–7 "on" and switch 8
"off"; in general the first 8 characters of the located (stripped)
bitstring each drive one switch with inverted polarity
(`'0'` → on, otherwise off). -/
theorem polling_classtemp_amended :
    ((List.range' 1 8).map (fun i =>
        getSwitchState (parseSwitchStatus (initPdu freshCoord ("10_0_0_5") 8)
          ("10_0_0_5") ("var classtemp='00000001';".data) 0) ("10_0_0_5") i) =
      [some (PyVal.str ("on")), some (PyVal.str ("on")), some (PyVal.str ("on")),
        some (PyVal.str ("on")), some (PyVal.str ("on")), some (PyVal.str ("on")),
        some (PyVal.str ("on")), some (PyVal.str ("off"))]) ∧
    (∀ (pid : String) (text cap : List Char) (t : ℚ) (i : Nat),
      extractClasstemp text = some cap → 8 ≤ (pyStrip cap).length →
      1 ≤ i → i ≤ 8 →
      getSwitchState (parseSwitchStatus freshCoord pid text t) pid i =
        some (PyVal.str (if (pyStrip cap).getD (i - 1) ' ' = '0' then "on" else "off"))) := by
  constructor
  · decide
  · intro pid text cap t i hcap hlen h1 h8
    have hg0 : 0 < (pyStrip cap).length := by omega
    have hg1 : 1 < (pyStrip cap).length := by omega
    have hg2 : 2 < (pyStrip cap).length := by omega
    have hg3 : 3 < (pyStrip cap).length := by omega
    have hg4 : 4 < (pyStrip cap).length := by omega
    have hg5 : 5 < (pyStrip cap).length := by omega
    have hg6 : 6 < (pyStrip cap).length := by omega
    have hg7 : 7 < (pyStrip cap).length := by omega
    have hr : List.range 8 = [0, 1, 2, 3, 4, 5, 6, 7] := by decide
    simp only [parseSwitchStatus, hcap, hr]
    interval_cases i <;>
      simp [updateSwitchState, initPdu, initEntry, getSwitchState, freshCoord,
        List.range', assocGet, assocSet, switchKey_one, switchKey_two,
        switchKey_three, switchKey_four, switchKey_five, switchKey_six,
        switchKey_seven, switchKey_eight, hg0, hg1, hg2, hg3, hg4, hg5, hg6, hg7,
        Option.getD_some]

/-- Witness for the general part of C9's amended theorem. -/
theorem polling_classtemp_amended_witness :
    getSwitchState (parseSwitchStatus freshCoord ("p")
        ("var classtemp='10000000'".data) 0) ("p") 1 =
      some (PyVal.str (if (pyStrip ("10000000".data)).getD 0 ' ' = '0'
        then "on" else "off")) :=
  polling_classtemp_amended.2 ("p") ("var classtemp='10000000'".data)
    ("10000000".data) 0 1 (by decide) (by decide) (by decide) (by decide)

theorem checkPat_eq : checkPat = ' ' :: ("check='" : String).data := by decide

theorem data_START : ("START " : String).data = ['S', 'T', 'A', 'R', 'T', ' '] := by decide

theorem data_quote_END : ("' END" : String).data = [quoteChar, ' ', 'E', 'N', 'D'] := by
  decide

theorem data_space_END : (" END" : String).data = [' ', 'E', 'N', 'D'] := by decide

theorem data_TART : ("TART " : String).data = ['T', 'A', 'R', 'T', ' '] := by decide

theorem lastSplitAt_head_not_mem {p0 : Char} (pr : List Char) {zs : List Char}
    (h : p0 ∉ zs) : lastSplitAt (p0 :: pr) zs = none := by
  induction zs with
  | nil => rfl
  | cons c cs ih =>
    have hih := ih (fun hm => h (List.mem_cons_of_mem c hm))
    have hpf : (p0 :: pr).isPrefixOf (c :: cs) = false := by
      rw [Bool.eq_false_iff]
      intro hpf
      rw [List.isPrefixOf_iff_prefix] at hpf
      exact h (by simp [(List.cons_prefix_cons.mp hpf).1])
    simp only [lastSplitAt, hih, hpf]
    rfl

theorem lastSplitAt_append {p0 : Char} {pr ys : List Char} (xs : List Char)
    (h0 : lastSplitAt (p0 :: pr) (pr ++ ys) = none) :
    lastSplitAt (p0 :: pr) (xs ++ (p0 :: pr) ++ ys) = some (xs, ys) := by
  induction xs with
  | nil =>
    have hpf : (p0 :: pr).isPrefixOf (p0 :: (pr ++ ys)) = true := by
      rw [List.isPrefixOf_iff_prefix]
      exact List.cons_prefix_cons.mpr ⟨rfl, List.prefix_append pr ys⟩
    simp only [List.nil_append, List.cons_append, List.append_eq, lastSplitAt, h0, hpf,
      if_true, List.length_cons, List.drop_succ_cons, List.drop_left]
  | cons a xs ih =>
    simp only [List.cons_append, List.append_eq, lastSplitAt, ih]

theorem takeWhile_all_append {p : Char → Bool} : ∀ {ds : List Char} {b : Char},
    ds.takeWhile p = ds → p b = false → (ds ++ [b]).takeWhile p = ds := by
  intro ds
  induction ds with
  | nil =>
    intro b _ hb
    simp [List.takeWhile_cons, hb]
  | cons a t ih =>
    intro b h hb
    by_cases hpa : p a = true
    · have ht : t.takeWhile p = t := by
        rw [List.takeWhile_cons, if_pos hpa] at h
        exact (List.cons.injEq a _ a t).mp h |>.2
      simp [List.takeWhile_cons, hpa, ih ht hb]
    · rw [List.takeWhile_cons] at h
      rw [if_neg hpa] at h
      exact absurd h.symm (List.cons_ne_nil a t)

theorem encodeFrame_data (c : String) :
    (encodeFrame c).data =
      ("START ".data ++ (c.data ++ (checkPat ++
        ((toString (getCode c)).data ++ [quoteChar, ' '])))) ++ 'E' :: 'N' :: 'D' :: [] := by
  simp [encodeFrame, String.data_append, checkPat, data_quote_END, List.append_assoc]
  all_goals decide

theorem encodeFrame_prefix_noEND (c : String) (h : containsEND c.data = false) :
    containsEND ("START ".data ++ (c.data ++ (checkPat ++
      ((toString (getCode c)).data ++ [quoteChar, ' '])))) = false := by
  have hlt : getCode c < 256 := by
    simp only [getCode]
    exact Nat.mod_lt _ (by norm_num)
  obtain ⟨hE, hSp, hQ, hne, htw, hparse⟩ := reprDigits_ok (getCode c) hlt
  rw [containsEND_append_of_noE _ (by decide)]
  have ht2 : (checkPat ++ ((toString (getCode c)).data ++ [quoteChar, ' '])).take 2 ≠
      ['N', 'D'] := by
    rw [List.take_append_of_le_length (by decide)]
    decide
  have ht1 : (checkPat ++ ((toString (getCode c)).data ++ [quoteChar, ' '])).take 1 ≠
      ['D'] := by
    rw [List.take_append_of_le_length (by decide)]
    decide
  rw [containsEND_append_safe h ht2 ht1]
  rw [containsEND_append_of_noE _ (by decide)]
  rw [containsEND_append_of_noE _ hE]
  decide

theorem splitAtEnd_encodeFrame (c : String) (h : containsEND c.data = false)
    (ys : List Char) :
    splitAtEnd ((encodeFrame c).data ++ ys) = some ((encodeFrame c).data, ys) := by
  rw [encodeFrame_data c, List.append_assoc]
  simp only [List.cons_append, List.nil_append]
  exact splitAtEnd_append ys (encodeFrame_prefix_noEND c h)

theorem pyStrip_sandwich {a b : Char} (mid : List Char) (ha : pyIsSpace a = false)
    (hb : pyIsSpace b = false) : pyStrip (a :: (mid ++ [b])) = a :: (mid ++ [b]) := by
  simp only [pyStrip, List.dropWhile_cons, ha, Bool.false_eq_true, if_false]
  rw [show a :: (mid ++ [b]) = (a :: mid) ++ [b] from rfl, List.reverse_append]
  simp only [List.reverse_cons, List.reverse_nil, List.nil_append, List.singleton_append,
    List.dropWhile_cons, hb, Bool.false_eq_true, if_false]
  simp [List.reverse_append]

theorem encodeFrame_shape (c : String) :
    (encodeFrame c).data = 'S' :: (("TART ".data ++ (c.data ++ (checkPat ++
      ((toString (getCode c)).data ++ [quoteChar, ' ', 'E', 'N'])))) ++ ['D']) := by
  rw [encodeFrame_data]
  simp [data_START, data_TART, List.append_assoc]

theorem encodeFrame_pyStrip (c : String) :
    pyStrip (encodeFrame c).data = (encodeFrame c).data := by
  rw [encodeFrame_shape]
  exact pyStrip_sandwich _ (by decide) (by decide)

theorem decodeFrames_encodeFrame (c : String) (h : containsEND c.data = false)
    (ys : List Char) :
    decodeFrames ((encodeFrame c).data ++ ys) =
      ((encodeFrame c).data :: (decodeFrames ys).1, (decodeFrames ys).2) := by
  rw [decodeFrames_unfold, splitAtEnd_encodeFrame c h ys]
  simp [encodeFrame_pyStrip]

theorem decodeFrame_encodeFrame (c : String) :
    decodeFrame (encodeFrame c).data = some (c.data, getCode c) := by
  have hlt : getCode c < 256 := by
    simp only [getCode]
    exact Nat.mod_lt _ (by norm_num)
  obtain ⟨hE, hSp, hQ, hne, htw, hparse⟩ := reprDigits_ok (getCode c) hlt
  have hsufshape : (encodeFrame c).data =
      ("START ".data ++ (c.data ++ (checkPat ++
        ((toString (getCode c)).data ++ [quoteChar])))) ++ (" END".data) := by
    rw [encodeFrame_data]
    simp [data_space_END, List.append_assoc]
  have hpre : ("START ".data).isPrefixOf (encodeFrame c).data = true := by
    rw [List.isPrefixOf_iff_prefix, encodeFrame_data, List.append_assoc]
    exact List.prefix_append _ _
  have hsuf : (" END".data).isSuffixOf (encodeFrame c).data = true := by
    rw [List.isSuffixOf_iff_suffix, hsufshape]
    exact List.suffix_append _ _
  have hlen6 : ("START ".data).length = 6 := by decide
  have hd6 : ((encodeFrame c).data).drop 6 =
      (c.data ++ (checkPat ++ ((toString (getCode c)).data ++ [quoteChar]))) ++
        (" END".data) := by
    rw [hsufshape, List.append_assoc, ← hlen6, List.drop_left]
  have hlen4 : ((encodeFrame c).data.drop 6).length - 4 =
      (c.data ++ (checkPat ++ ((toString (getCode c)).data ++ [quoteChar]))).length := by
    rw [hd6, List.length_append]
    have : (" END".data).length = 4 := by decide
    omega
  have htake : ((encodeFrame c).data.drop 6).take (((encodeFrame c).data.drop 6).length - 4) =
      c.data ++ (checkPat ++ ((toString (getCode c)).data ++ [quoteChar])) := by
    rw [hlen4, hd6]
    exact List.take_left' rfl
  have hsplit : lastSplitAt checkPat
      (c.data ++ (checkPat ++ ((toString (getCode c)).data ++ [quoteChar]))) =
      some (c.data, (toString (getCode c)).data ++ [quoteChar]) := by
    rw [checkPat_eq]
    have h0 : lastSplitAt (' ' :: ("check='" : String).data)
        (("check='" : String).data ++ ((toString (getCode c)).data ++ [quoteChar])) =
        none := by
      apply lastSplitAt_head_not_mem
      simp only [List.mem_append, List.mem_singleton]
      push_neg
      refine ⟨by decide, hSp, by decide⟩
    have := lastSplitAt_append c.data h0
    rw [List.append_assoc] at this
    simpa using this
  have hqd : Char.isDigit quoteChar = false := by decide
  have htwq : ((toString (getCode c)).data ++ [quoteChar]).takeWhile Char.isDigit =
      (toString (getCode c)).data := takeWhile_all_append htw hqd
  rw [decodeFrame, if_pos ⟨hpre, hsuf⟩]
  simp only [htake, hsplit, htwq]
  rw [if_pos ⟨hne, trivial⟩, hparse]

/-- C5: `encode` appends `check='N'` with `N = sum(ord(c)) % 256` and wraps
with `START `/` END`; for content free of `"END"`, the stream decoder
emits exactly the whole frame with empty remainder, and decoding recovers
the content and the checksum value exactly. -/
theorem frame_codec_roundtrip (c : String) (h : containsEND c.data = false) :
    encodeFrame c =
      "START " ++ c ++ " check='" ++ toString ((c.data.map Char.toNat).sum % 256) ++
        "' END" ∧
    decodeFrames (encodeFrame c).data = ([(encodeFrame c).data], []) ∧
    decodeFrame (encodeFrame c).data =
      some (c.data, (c.data.map Char.toNat).sum % 256) := by
  refine ⟨rfl, ?_, decodeFrame_encodeFrame c⟩
  have hf := decodeFrames_encodeFrame c h []
  rw [List.append_nil] at hf
  rw [hf]
  rfl

/-- Witness for C5 on the content `"iostate"`. -/
theorem frame_codec_roundtrip_witness :
    containsEND ("iostate".data) = false ∧
    decodeFrame (encodeFrame ("iostate")).data =
      some (("iostate".data), (("iostate".data).map Char.toNat).sum % 256) :=
  ⟨by decide, (frame_codec_roundtrip ("iostate") (by decide)).2.2⟩

/-- C6: two concatenated frames in one read are both emitted, in order,
with empty remainder; a buffer holding no `"END"` is wholly retained with
nothing emitted; and processing a buffer in two reads agrees with
processing the concatenation, so assembly continues across arbitrarily
many partial reads. -/
theorem multi_frame_decoding :
    (∀ c1 c2 : String, containsEND c1.data = false → containsEND c2.data = false →
      decodeFrames ((encodeFrame c1).data ++ (encodeFrame c2).data) =
        ([(encodeFrame c1).data, (encodeFrame c2).data], [])) ∧
    (∀ buf : List Char, containsEND buf = false → decodeFrames buf = ([], buf)) ∧
    (∀ b chunk : List Char,
      decodeFrames (b ++ chunk) =
        ((decodeFrames b).1 ++ (decodeFrames ((decodeFrames b).2 ++ chunk)).1,
          (decodeFrames ((decodeFrames b).2 ++ chunk)).2)) := by
  refine ⟨?_, fun buf hb => decodeFrames_of_no_end hb,
    fun b chunk => decodeFrames_append b chunk⟩
  intro c1 c2 h1 h2
  rw [decodeFrames_encodeFrame c1 h1]
  have h2' := decodeFrames_encodeFrame c2 h2 []
  rw [List.append_nil] at h2'
  rw [h2']
  rfl

/-- Witness for C6: two real command frames in one buffer, and a partial
frame with no END. -/
theorem multi_frame_decoding_witness :
    decodeFrames ((encodeFrame ("iostate")).data ++ (encodeFrame ("PVC_get")).data) =
      ([(encodeFrame ("iostate")).data, (encodeFrame ("PVC_get")).data], []) ∧
    decodeFrames ("STAR".data) = ([], "STAR".data) :=
  ⟨multi_frame_decoding.1 ("iostate") ("PVC_get") (by decide) (by decide),
    multi_frame_decoding.2.1 ("STAR".data) (by decide)⟩

/-- C1 (counterexample): after logging in as `PDU1` and then receiving
`START open io='4' END`, the coordinator holds switch 4 "on" and switch 3
still "off" — the code maps `io = 4 ≤ 8` directly to switch number 4, so
the claim's "sets switch 3" is false. -/
theorem gateway_scenario_counterexample :
    (let r1 := handleChunk { registry := [], coordinator := freshCoord, pool := [] }
        { conn := { id := 0, closing := false }, pduId := none, buffer := [],
          closed := false }
        ("START id='PDU1' END") 0 ("T1")
     let r2 := handleChunk r1.1 r1.2.1 ("START open io='4' END") 1 ("T2")
     getSwitchState r2.1.coordinator ("PDU1") 3 = some (PyVal.str ("off")) ∧
       ¬getSwitchState r2.1.coordinator ("PDU1") 3 = some (PyVal.str ("on"))) := by
  exact ⟨by decide, by decide⟩

/-- C1 (amended): on a new connection, the frame `START id='PDU1' END`
makes the gateway reply with the raw bytes `Login Successful` (followed
by the initial `iostate` and `PVC_get` request frames), registers `PDU1`
as connected in the device registry, and stores the connection in the
pool; a subsequent `START open io='4' END` on that connection sets switch
4 of `PDU1` to "on" (`io = 4 ≤ 8` maps directly to the switch number),
leaving switch 3 "off". -/
theorem gateway_scenario_amended :
    (let r1 := handleChunk { registry := [], coordinator := freshCoord, pool := [] }
        { conn := { id := 0, closing := false }, pduId := none, buffer := [],
          closed := false }
        ("START id='PDU1' END") 0 ("T1")
     let r2 := handleChunk r1.1 r1.2.1 ("START open io='4' END") 1 ("T2")
     r1.2.2 = ["Login Successful", encodeFrame ("iostate"), encodeFrame ("PVC_get")] ∧
       (assocGet r1.1.registry ("PDU1")).map DeviceRec.connected = some true ∧
       assocGet r1.1.pool ("PDU1") = some { id := 0, closing := false } ∧
       r1.2.1.pduId = some ("PDU1") ∧
       getSwitchState r2.1.coordinator ("PDU1") 4 = some (PyVal.str ("on")) ∧
       getSwitchState r2.1.coordinator ("PDU1") 3 = some (PyVal.str ("off"))) := by
  exact ⟨by decide, by decide, by decide, by decide, by decide, by decide⟩

end Ziot

